import Mathlib

/-!
Verification of the free-text → action resolver, the action executor and the
output formatter of the hofhacks Excel agent add-in.

The embedding translates the TypeScript sources:
  * `src/taskpane/services/AgentService.ts` (both versions; the larger one in
    `src/unnamed/part_005` is the one the spec claims cite) — `processMessage`,
    `parseValuesString`, `wrapText`, `formatWorksheetOutput`, `getColumnLetter`;
  * `src/taskpane/services/ExcelActionExecutor.ts` — `executeActions`,
    `executeAction`;
  * `src/taskpane/services/ExcelActionProtocol.ts` — action kinds.

The external `ExcelService` (the DocumentPort of the design) is modelled as a
`Port` record of possibly failing operations; every attempted document call is
recorded in an explicit trace, so statements such as "no write occurs" are
about the trace.  JavaScript regular-expression matching is translated by
specialised leftmost-first scanners, one per pattern of the source, with the
exact backtracking semantics each pattern needs.  `console.log` and
`console.warn` calls are omitted: the repository documentation states log
records are not part of the functional contract.
-/

/-! ## Basic string scanning (JS `String.prototype.includes` and regex helpers) -/

/-- Does the pattern `p` occur starting exactly at the head of `s`? -/
def prefAt : List Char → List Char → Bool
  | [], _ => true
  | _ :: _, [] => false
  | c :: p, d :: s => c == d && prefAt p s

/-- Case-insensitive variant of `prefAt` (for JS `/i` patterns, ASCII). -/
def prefAtCI : List Char → List Char → Bool
  | [], _ => true
  | _ :: _, [] => false
  | c :: p, d :: s => c.toLower == d.toLower && prefAtCI p s

/-- JS `String.prototype.includes` on char lists. -/
def hasSub : List Char → List Char → Bool
  | [], p => p.isEmpty
  | c :: t, p => prefAt p (c :: t) || hasSub t p

/-- JS `String.prototype.includes`. -/
def includesStr (s pat : String) : Bool :=
  hasSub s.toList pat.toList

/-- JS `String.prototype.toLowerCase` (ASCII; the inputs of the claims are
ASCII). -/
def toLowerStr (s : String) : String :=
  String.mk (s.toList.map Char.toLower)

/-- JS `String.prototype.trim`. -/
def trimStr (s : String) : String :=
  String.mk
    (((s.toList.dropWhile Char.isWhitespace).reverse.dropWhile
        Char.isWhitespace).reverse)

/-- JS `String.prototype.split` with a one-character separator: empty pieces
are preserved, the empty string splits to `[""]`. -/
def splitOnChar (sep : Char) (s : String) : List String :=
  let rec go : List Char → List Char → List String
    | [], acc => [String.mk acc.reverse]
    | c :: t, acc =>
      if c == sep then String.mk acc.reverse :: go t []
      else go t (c :: acc)
  go s.toList []

/-- Leftmost-match scanner: try the position-local matcher `f` at every
position of the string, left to right, as a JS regex engine does. -/
def scanFirst {α : Type} (f : List Char → Option α) : List Char → Option α
  | [] => f []
  | c :: t =>
    match f (c :: t) with
    | some r => some r
    | none => scanFirst f t

/-- Remainder of the list after the first occurrence of `p`, if any. -/
def dropAfterSub (p : List Char) : List Char → Option (List Char)
  | [] => if p.isEmpty then some [] else none
  | c :: t =>
    if prefAt p (c :: t) then some ((c :: t).drop p.length) else dropAfterSub p t

/-! ## The JSON value model

Cell payloads are `any` in the source; the values actually flowing through the
embedded paths are JSON-parsed matrices of numbers and strings, worksheet cell
contents (string / number / boolean / empty) and nested arrays.  Numeric
literals are modelled as integers: none of the embedded code paths computes
with fractional values. -/

inductive Json where
  | null
  | bool (b : Bool)
  | num (n : Int)
  | str (s : String)
  | arr (elems : List Json)

/-- JS `typeof x === \x27object\x27` for the values of the model: arrays and
`null` are objects; strings, numbers and booleans are not. -/
def Json.isObjectTy : Json → Bool
  | .null => true
  | .arr _ => true
  | _ => false

/-- Escape one character for a JSON string literal (the escapes the embedded
values can contain). -/
def jsonEscapeChar (c : Char) : String :=
  if c == '"' then "\\\""
  else if c == '\\' then "\\\\"
  else if c == '\n' then "\\n"
  else if c == '\t' then "\\t"
  else if c == '\r' then "\\r"
  else String.mk [c]

def jsonEscape (s : String) : String :=
  String.join (s.toList.map jsonEscapeChar)

mutual
/-- `JSON.stringify(v)` (compact form, as used for object-valued cells). -/
def stringifyCompact : Json → String
  | .null => "null"
  | .bool b => if b then "true" else "false"
  | .num n => toString n
  | .str s => "\"" ++ jsonEscape s ++ "\""
  | .arr xs => "[" ++ stringifyCompactList xs ++ "]"

def stringifyCompactList : List Json → String
  | [] => ""
  | [x] => stringifyCompact x
  | x :: y :: xs => stringifyCompact x ++ "," ++ stringifyCompactList (y :: xs)
end

def indentSpaces (n : Nat) : String :=
  String.mk (List.replicate n ' ')

mutual
/-- `JSON.stringify(v, null, 2)` — the pretty form used by the selection
branch of the resolver.  `ind` is the current indentation level. -/
def stringifyIndent (ind : Nat) : Json → String
  | .arr [] => "[]"
  | .arr (x :: xs) =>
    "[\n" ++ stringifyIndentItems (ind + 2) (x :: xs) ++ "\n" ++ indentSpaces ind ++ "]"
  | v => stringifyCompact v

def stringifyIndentItems (ind : Nat) : List Json → String
  | [] => ""
  | [x] => indentSpaces ind ++ stringifyIndent ind x
  | x :: y :: xs =>
    indentSpaces ind ++ stringifyIndent ind x ++ ",\n" ++ stringifyIndentItems ind (y :: xs)
end

/-! ## A JSON parser modelling `JSON.parse`

`AgentService.parseValuesString` feeds the captured bracket text through
`JSON.parse`.  The parser below accepts the grammar the agent actually
produces and consumes (arrays, integers, double-quoted strings, `true`,
`false`, `null`); diagnostics are strings — the engine wording of a
`SyntaxError` message is not part of any claim, only that the diagnostic is
carried into the local response. -/

def skipWs (s : List Char) : List Char := s.dropWhile Char.isWhitespace

/-- Parse the tail of a string literal (after the opening quote). -/
def parseJStr : List Char → String → Except String (String × List Char)
  | [], _ => Except.error "Unterminated string in JSON"
  | '"' :: rest, acc => Except.ok (acc, rest)
  | '\\' :: e :: rest, acc =>
    if e == '"' then parseJStr rest (acc ++ "\"")
    else if e == '\\' then parseJStr rest (acc ++ "\\")
    else if e == '/' then parseJStr rest (acc ++ "/")
    else if e == 'n' then parseJStr rest (acc ++ "\n")
    else if e == 't' then parseJStr rest (acc ++ "\t")
    else if e == 'r' then parseJStr rest (acc ++ "\r")
    else Except.error "Bad escaped character in JSON"
  | ['\\'], _ => Except.error "Unterminated string in JSON"
  | c :: rest, acc => parseJStr rest (acc ++ String.mk [c])

def digitsToNat (ds : List Char) : Nat :=
  ds.foldl (fun a c => a * 10 + (c.toNat - 48)) 0

mutual
def parseJVal : Nat → List Char → Except String (Json × List Char)
  | 0, _ => Except.error "JSON input too deeply nested"
  | fuel + 1, s =>
    match skipWs s with
    | [] => Except.error "Unexpected end of JSON input"
    | 'n' :: rest =>
      if prefAt ("ull".toList) rest then Except.ok (Json.null, rest.drop 3)
      else Except.error "Unexpected token n in JSON"
    | 't' :: rest =>
      if prefAt ("rue".toList) rest then Except.ok (Json.bool true, rest.drop 3)
      else Except.error "Unexpected token t in JSON"
    | 'f' :: rest =>
      if prefAt ("alse".toList) rest then Except.ok (Json.bool false, rest.drop 4)
      else Except.error "Unexpected token f in JSON"
    | '"' :: rest =>
      match parseJStr rest "" with
      | Except.ok (str, rest2) => Except.ok (Json.str str, rest2)
      | Except.error e => Except.error e
    | '-' :: rest =>
      match rest.span Char.isDigit with
      | (ds, rest2) =>
        if ds.isEmpty then Except.error "Unexpected token - in JSON"
        else Except.ok (Json.num (-(digitsToNat ds : Int)), rest2)
    | '[' :: rest =>
      (match skipWs rest with
       | ']' :: rest2 => Except.ok (Json.arr [], rest2)
       | _ => parseJItems fuel rest [])
    | c :: rest =>
      if c.isDigit then
        match (c :: rest).span Char.isDigit with
        | (ds, rest2) => Except.ok (Json.num (digitsToNat ds : Int), rest2)
      else Except.error ("Unexpected token " ++ String.mk [c] ++ " in JSON")

def parseJItems : Nat → List Char → List Json → Except String (Json × List Char)
  | 0, _, _ => Except.error "JSON input too deeply nested"
  | fuel + 1, s, acc =>
    match parseJVal fuel s with
    | Except.error e => Except.error e
    | Except.ok (v, rest) =>
      match skipWs rest with
      | ',' :: rest2 => parseJItems fuel rest2 (acc ++ [v])
      | ']' :: rest2 => Except.ok (Json.arr (acc ++ [v]), rest2)
      | _ => Except.error "Expected , or ] after JSON array element"
end

def jsonParse (s : String) : Except String Json :=
  match parseJVal (2 * s.length + 8) s.toList with
  | Except.error e => Except.error e
  | Except.ok (v, rest) =>
    if (skipWs rest).isEmpty then Except.ok v
    else Except.error "Unexpected non-whitespace character after JSON data"

/-! ## The regular-expression matchers of `AgentService.processMessage`

Each definition is a specialised translation of one JS regex of the source,
with leftmost-first match semantics and the backtracking behaviour the
pattern needs.  Captured text preserves the case of the scanned string (the
source applies some patterns to the lowercased message and others to the
original message). -/

/-- One position of `/from ([A-Za-z]+\d+:[A-Za-z]+\d+)/i`. -/
def tryFromRange (s : List Char) : Option String :=
  if prefAt ("from ".toList) s then
    let rest := s.drop 5
    let (l1, r1) := rest.span Char.isAlpha
    let (d1, r2) := r1.span Char.isDigit
    match r2 with
    | ':' :: r3 =>
      if l1.isEmpty || d1.isEmpty then none
      else
        let (l2, r4) := r3.span Char.isAlpha
        let (d2, _) := r4.span Char.isDigit
        if l2.isEmpty || d2.isEmpty then none
        else some (String.mk (l1 ++ d1 ++ [':'] ++ l2 ++ d2))
    | _ => none
  else none

/-- `lowerMessage.match(/from ([A-Za-z]+\d+:[A-Za-z]+\d+)/i)`, capture 1. -/
def matchFromRange (s : List Char) : Option String := scanFirst tryFromRange s

/-- One position of `/to ([A-Za-z]+\d+)/i`. -/
def tryToCell (s : List Char) : Option String :=
  if prefAt ("to ".toList) s then
    let rest := s.drop 3
    let (l1, r1) := rest.span Char.isAlpha
    let (d1, _) := r1.span Char.isDigit
    if l1.isEmpty || d1.isEmpty then none else some (String.mk (l1 ++ d1))
  else none

/-- `lowerMessage.match(/to ([A-Za-z]+\d+)/i)`, capture 1. -/
def matchToCell (s : List Char) : Option String := scanFirst tryToCell s

/-- `\s+` followed by the literal `w` (one alternative of the terminator
groups `(?:\s+and|\s+with|\s+to|...)`): at least one whitespace character,
then `w`.  The literals start with non-whitespace, so consuming the maximal
whitespace run is exact. -/
def wsThenLit (w : List Char) (s : List Char) : Bool :=
  match s.span Char.isWhitespace with
  | (ws, rest) => !ws.isEmpty && prefAt w rest

/-- Terminator `(?:\s+and|\s+with|\s+to|$)` of the row/column patterns. -/
def rowColTerm (s : List Char) : Bool :=
  wsThenLit ("and".toList) s || wsThenLit ("with".toList) s ||
  wsThenLit ("to".toList) s || s.isEmpty

/-- Terminator `(?:\s+values|\s+and|\s+with|\s+to|$)` of the value pattern. -/
def valueTerm (s : List Char) : Bool :=
  wsThenLit ("values".toList) s || wsThenLit ("and".toList) s ||
  wsThenLit ("with".toList) s || wsThenLit ("to".toList) s || s.isEmpty

/-- Lazy capture `([^,]+?)` followed by a terminator: grow the capture one
non-comma character at a time and stop as soon as the terminator matches the
remainder, exactly as the JS engine expands a lazy quantifier. -/
def lazyCapAux (term : List Char → Bool) : List Char → List Char → Option String
  | _, [] => none
  | acc, c :: t =>
    if c == ',' then none
    else
      let acc2 := acc ++ [c]
      if term t then some (String.mk acc2) else lazyCapAux term acc2 t

/-- One position of a pattern `literal ([^,]+?) terminator`. -/
def tryLitLazy (lit : List Char) (term : List Char → Bool) (s : List Char) :
    Option String :=
  if prefAt lit s then lazyCapAux term [] (s.drop lit.length) else none

/-- `lowerMessage.match(/rows as ([^,]+?)(?:\s+and|\s+with|\s+to|$)/i)`. -/
def matchRowsAs (s : List Char) : Option String :=
  scanFirst (tryLitLazy ("rows as ".toList) rowColTerm) s

/-- `lowerMessage.match(/columns as ([^,]+?)(?:\s+and|\s+with|\s+to|$)/i)`. -/
def matchColumnsAs (s : List Char) : Option String :=
  scanFirst (tryLitLazy ("columns as ".toList) rowColTerm) s

/-- `lowerMessage.match(/sum the ([^,]+?)(?:\s+values|\s+and|\s+with|\s+to|$)/i)`. -/
def matchSumThe (s : List Char) : Option String :=
  scanFirst (tryLitLazy ("sum the ".toList) valueTerm) s

/-- One position of `/[A-Z]+\d+/` (case sensitive, on the original message). -/
def tryCellRef (s : List Char) : Option String :=
  let (l1, r1) := s.span Char.isUpper
  let (d1, _) := r1.span Char.isDigit
  if l1.isEmpty || d1.isEmpty then none else some (String.mk (l1 ++ d1))

/-- `message.match(/[A-Z]+\d+/)`, whole match. -/
def matchCellRef (message : String) : Option String :=
  scanFirst tryCellRef message.toList

/-- Backtracking of `\s+(.+)$`: `cap` is the capture candidate after the
currently chosen whitespace run, `wsRev` the reversed remaining whitespace.
A candidate succeeds when it is non-empty and free of line terminators (JS
`.` matches neither `\n` nor `\r`); otherwise one whitespace character is
given back to the capture, keeping at least one for `\s+`. -/
def vrGo : List Char → List Char → Option (List Char)
  | wsRev, cap =>
    if !cap.isEmpty && cap.all (fun c => c != '\n' && c != '\r') then some cap
    else
      match wsRev with
      | [] => none
      | [_] => none
      | c :: rest => vrGo rest (c :: cap)

/-- One position of `/value\s+(.+)$/i`. -/
def tryValueRest (s : List Char) : Option String :=
  if prefAtCI ("value".toList) s then
    let rest := s.drop 5
    let (ws, afterWs) := rest.span Char.isWhitespace
    if ws.isEmpty then none
    else
      match vrGo ws.reverse afterWs with
      | some cap => some (String.mk cap)
      | none => none
  else none

/-- `message.match(/value\s+(.+)$/i)`, capture 1. -/
def matchValueRest (message : String) : Option String :=
  scanFirst tryValueRest message.toList

/-- One position of `/range\s+([A-Z]+\d+:[A-Z]+\d+)/i` (the `/i` flag makes
the letter class any ASCII letter; the capture keeps the original case). -/
def tryRangeAddr (s : List Char) : Option String :=
  if prefAtCI ("range".toList) s then
    let rest := s.drop 5
    let (ws, r0) := rest.span Char.isWhitespace
    if ws.isEmpty then none
    else
      let (l1, r1) := r0.span Char.isAlpha
      let (d1, r2) := r1.span Char.isDigit
      match r2 with
      | ':' :: r3 =>
        if l1.isEmpty || d1.isEmpty then none
        else
          let (l2, r4) := r3.span Char.isAlpha
          let (d2, _) := r4.span Char.isDigit
          if l2.isEmpty || d2.isEmpty then none
          else some (String.mk (l1 ++ d1 ++ [':'] ++ l2 ++ d2))
      | _ => none
  else none

/-- `message.match(/range\s+([A-Z]+\d+:[A-Z]+\d+)/i)`, capture 1. -/
def matchRangeAddr (message : String) : Option String :=
  scanFirst tryRangeAddr message.toList

/-- Longest prefix of `region` followed by a `]`: the greedy `(.*)` of
`/values\s+\[(.*)\]/i` backtracks to the last `]` of the line. -/
def upToLastBracket (region : List Char) : Option (List Char) :=
  match region.reverse.dropWhile (fun c => c != ']') with
  | [] => none
  | _ :: t => some t.reverse

/-- One position of `/values\s+\[(.*)\]/i`; `.` stops at line terminators. -/
def tryValuesBracket (s : List Char) : Option String :=
  if prefAtCI ("values".toList) s then
    let rest := s.drop 6
    let (ws, r0) := rest.span Char.isWhitespace
    if ws.isEmpty then none
    else
      match r0 with
      | '[' :: r1 =>
        let region := r1.takeWhile (fun c => c != '\n' && c != '\r')
        match upToLastBracket region with
        | some cap => some (String.mk cap)
        | none => none
      | _ => none
  else none

/-- `message.match(/values\s+\[(.*)\]/i)`, capture 1. -/
def matchValuesBracket (message : String) : Option String :=
  scanFirst tryValuesBracket message.toList

/-- Cut a candidate match region at the first line terminator (`.` of a JS
regex matches neither `\n` nor `\r`). -/
def segUntilNL (s : List Char) : List Char :=
  s.takeWhile (fun c => c != '\n' && c != '\r')

/-- One start position of `/create.*pivot.*table/i` (scanned on the
lowercased text, which is equivalent to the `/i` flag for ASCII): after the
literal `create`, `pivot` and then `table` must occur on the same line. -/
def tryCreatePivot (s : List Char) : Bool :=
  if prefAt ("create".toList) s then
    match dropAfterSub ("pivot".toList) (segUntilNL (s.drop 6)) with
    | some r => hasSub r ("table".toList)
    | none => false
  else false

/-- `pivotTableRegex.test(message)` with `pivotTableRegex = /create.*pivot.*table/i`. -/
def createPivotTest : List Char → Bool
  | [] => false
  | c :: t => tryCreatePivot (c :: t) || createPivotTest t

/-! ## `AgentService.getColumnLetter` and the output formatter -/

/-- The loop of `getColumnLetter`: while `temp >= 0` prepend
`String.fromCharCode(65 + temp % 26)` and set `temp = floor(temp / 26) - 1`
(the loop exits exactly when `temp < 26`, where the JS update goes negative). -/
def getColumnLetterAux (temp : Nat) : String :=
  if temp < 26 then String.mk [Char.ofNat (65 + temp % 26)]
  else getColumnLetterAux (temp / 26 - 1) ++ String.mk [Char.ofNat (65 + temp % 26)]
termination_by temp
decreasing_by
  have h26 : temp / 26 < temp := Nat.div_lt_self (by omega) (by omega)
  omega

/-- `AgentService.getColumnLetter` (0 = A, 1 = B, ...). -/
def getColumnLetter (index : Nat) : String := getColumnLetterAux index

/-- Modelled from the spec: "standard base-26 bijective numbering" — the
representation of `m ≥ 1` with digits 1..26 written A..Z, most significant
digit first. -/
def bijectiveBase26 (m : Nat) : String :=
  if m ≤ 26 then String.mk [Char.ofNat (64 + m)]
  else bijectiveBase26 ((m - 1) / 26) ++ String.mk [Char.ofNat (64 + (m - 1) % 26 + 1)]
termination_by m
decreasing_by
  have : (m - 1) / 26 ≤ m - 1 := Nat.div_le_self _ _
  omega

/-- Modelled from the spec: the column letter of 0-based index `n` under
standard base-26 bijective numbering is the bijective representation of
`n + 1`. -/
def specColumnLetter (n : Nat) : String := bijectiveBase26 (n + 1)

/-- `AgentService.wrapText`: split at spaces, greedily refill lines of at
most `width` characters (a word longer than `width` stands on its own line). -/
def wrapText (text : String) (width : Nat) : List String :=
  if text.length ≤ width then [text]
  else
    let words := splitOnChar ' ' text
    let step : List String × String → String → List String × String :=
      fun (acc : List String × String) word =>
        let (lines, currentLine) := acc
        if currentLine.length + word.length + 1 > width then
          (if currentLine.length > 0 then lines ++ [currentLine] else lines, word)
        else
          (lines, if currentLine.length == 0 then word else currentLine ++ " " ++ word)
    let (lines, currentLine) := words.foldl step ([], "")
    if currentLine.length > 0 then lines ++ [currentLine] else lines

/-- The emptiness test of the formatter:
`cell !== null && cell !== undefined && cell !== ""` is false. `Json.null`
models both `null` and `undefined`. -/
def cellIsEmpty : Json → Bool
  | Json.null => true
  | Json.str s => s.isEmpty
  | _ => false

/-- Template interpolation of a cell value after the
`typeof cellValue === \x27object\x27 → JSON.stringify` step of the source. -/
def formatCellValue (cell : Json) : String :=
  if cell.isObjectTy then stringifyCompact cell
  else
    match cell with
    | Json.str s => s
    | Json.num n => toString n
    | Json.bool b => if b then "true" else "false"
    | _ => ""

/-- The flush of the wrapped lines of one oversized cell:
`wrappedLines.forEach(...)` leaves the last wrapped line as the current line
and appends the earlier ones (each with a newline) to the output. -/
def flushWrapped (output currentLine : String) : List String → String × String
  | [] => (output, currentLine)
  | w0 :: ws =>
    let rec go (output currentLine : String) : List String → String × String
      | [] => (output, currentLine)
      | w :: rest => go (output ++ currentLine ++ "\n") w rest
    go output w0 ws

/-- The inner `row.forEach` loop of `formatWorksheetOutput`: state is
`(output, currentLine, isFirstCell)`. -/
def formatRowCells (rowIndex : Nat) :
    List Json → Nat → String → String → Bool → String × String
  | [], _, output, currentLine, _ => (output, currentLine)
  | cell :: rest, colIndex, output, currentLine, isFirstCell =>
    if cellIsEmpty cell then
      formatRowCells rowIndex rest (colIndex + 1) output currentLine isFirstCell
    else
      let colLetter := getColumnLetter colIndex
      let cellContent :=
        colLetter ++ toString (rowIndex + 1) ++ "=" ++ formatCellValue cell
      if currentLine.length + cellContent.length + (if isFirstCell then 0 else 2) > 40 then
        let flushed := currentLine.length > 0
        let output := if flushed then output ++ currentLine ++ "\n" else output
        let currentLine := if flushed then "" else currentLine
        let isFirstCell := if flushed then true else isFirstCell
        if cellContent.length > 40 then
          let (output, currentLine) :=
            flushWrapped output currentLine (wrapText cellContent 40)
          formatRowCells rowIndex rest (colIndex + 1) output currentLine isFirstCell
        else
          formatRowCells rowIndex rest (colIndex + 1) output cellContent isFirstCell
      else
        if isFirstCell then
          formatRowCells rowIndex rest (colIndex + 1) output cellContent false
        else
          formatRowCells rowIndex rest (colIndex + 1) output
            (currentLine ++ ", " ++ cellContent) isFirstCell

/-- The outer `values.forEach` loop of `formatWorksheetOutput`: state is
`(output, hasContent)`. -/
def formatRows : List (List Json) → Nat → String → Bool → String × Bool
  | [], _, output, hasContent => (output, hasContent)
  | row :: rest, rowIndex, output, hasContent =>
    if row.any (fun c => !cellIsEmpty c) then
      let output := output ++ "Row " ++ toString (rowIndex + 1) ++ ": "
      let (output, currentLine) := formatRowCells rowIndex row 0 output "" true
      let output := if currentLine.length > 0 then output ++ currentLine else output
      formatRows rest (rowIndex + 1) (output ++ "\n") true
    else formatRows rest (rowIndex + 1) output hasContent

/-- `AgentService.formatWorksheetOutput`. -/
def formatWorksheetOutput (values : List (List Json)) : String :=
  if values.isEmpty then "The worksheet is empty."
  else
    match formatRows values 0 "" false with
    | (output, hasContent) =>
      if hasContent then output else "The worksheet is empty."

/-! ## The regexes of the unreachable second pivot branch

`processMessage` ends with a second pivot parser guarded by
`/create.*pivot.*table/i`; it is embedded for fidelity (and is proved
unreachable: any message it accepts contains `pivot` and is captured by the
first pivot branch). -/

/-- One position of `/from\s+([A-Z0-9:]+)/i` (and of the `to` variant):
literal, mandatory whitespace, then a run of letters, digits or colons. -/
def tryLitWsToken (lit : List Char) (s : List Char) : Option String :=
  if prefAtCI lit s then
    let rest := s.drop lit.length
    let (ws, r0) := rest.span Char.isWhitespace
    if ws.isEmpty then none
    else
      let (cap, _) := r0.span (fun c => c.isAlpha || c.isDigit || c == ':')
      if cap.isEmpty then none else some (String.mk cap)
  else none

/-- `message.match(/from\s+([A-Z0-9:]+)/i)`, capture 1. -/
def matchFromWs (message : String) : Option String :=
  scanFirst (tryLitWsToken ("from".toList)) message.toList

/-- `message.match(/to\s+([A-Z0-9:]+)/i)`, capture 1. -/
def matchToWs (message : String) : Option String :=
  scanFirst (tryLitWsToken ("to".toList)) message.toList

/-- The `\s*:\s*([^,]+)` tail of the row/column/value colon patterns.  The
greedy `([^,]+)` runs to the first comma (or the end); the `\s*` before it
takes the maximal whitespace run that still leaves the capture non-empty,
which is how the JS engine backtracks the star. -/
def colonTail (r : List Char) : Option String :=
  match r.dropWhile Char.isWhitespace with
  | ':' :: r2 =>
    let w := r2.takeWhile (fun c => c != ',')
    if w.isEmpty then none
    else
      let wsrun := (r2.takeWhile Char.isWhitespace).length
      some (String.mk (w.drop (min wsrun (w.length - 1))))
  | _ => none

/-- One position of `/rows?\s*:\s*([^,]+)/i` (or `columns?`, `values?`):
the greedy `s?` is tried with the `s` first, then without. -/
def tryOptSColon (lit : List Char) (s : List Char) : Option String :=
  if prefAtCI lit s then
    let r := s.drop lit.length
    match r with
    | c :: r2 =>
      if c.toLower == 's' then
        match colonTail r2 with
        | some x => some x
        | none => colonTail r
      else colonTail r
    | [] => colonTail r
  else none

/-- `message.match(/rows?\s*:\s*([^,]+)/i)`, capture 1. -/
def matchRowsColon (message : String) : Option String :=
  scanFirst (tryOptSColon ("row".toList)) message.toList

/-- `message.match(/columns?\s*:\s*([^,]+)/i)`, capture 1. -/
def matchColumnsColon (message : String) : Option String :=
  scanFirst (tryOptSColon ("column".toList)) message.toList

/-- `message.match(/values?\s*:\s*([^,]+)/i)`, capture 1. -/
def matchValuesColon (message : String) : Option String :=
  scanFirst (tryOptSColon ("value".toList)) message.toList

/-! ## The data model: DocumentPort, protocol shapes, responses -/

structure ExcelRangeD where
  address : String
  values : List (List Json)

/-- `ExcelWorksheet` of `ExcelService.ts`. -/
structure Worksheet where
  name : String
  ranges : List ExcelRangeD

/-- One attempted DocumentPort call (the observable side effects). -/
inductive PortCall where
  | getCurrentWorksheet
  | writeToCell (address : String) (value : Json)
  | writeToRange (address : String) (values : Json)
  | getSelectedRange

/-- The DocumentPort (`ExcelService`) seen as an environment: each operation
either succeeds or fails with a collaborator-defined error message. -/
structure Port where
  getCurrentWorksheet : Except String Worksheet
  writeToCell : String → Json → Except String Unit
  writeToRange : String → Json → Except String Unit
  getSelectedRange : Except String ExcelRangeD

/-- The `action.type` literals of the resolver response. -/
inductive AgentActionType where
  | WRITE_CELL
  | WRITE_RANGE
  | READ_RANGE
  | CREATE_PIVOT_TABLE

/-- One `{ field, function }` pair of a pivot value list (the source field
named `function` is a Lean keyword; it is called `func` here). -/
structure PivotValueField where
  field : String
  func : String

/-- The kind-specific `action.data` payloads the resolver produces. -/
inductive AgentActionData where
  | writeCell (address : String) (value : String)
  | writeRange (address : String) (values : Json)
  | readRange (range : ExcelRangeD)
  | pivot (sourceRange destinationRange : String) (rows columns : List String)
      (values : List PivotValueField)
  | pivotManual (sourceRange destinationRange : String)
      (rows columns values : List String)

structure AgentAction where
  type : AgentActionType
  data : AgentActionData

/-- `AgentResponse` of `AgentService.ts`. -/
structure AgentResponse where
  message : String
  action : Option AgentAction := none
  body : Option String := none

/-! ## `AgentService.parseValuesString` -/

/-- `valuesString.replace(/\x27/g, \x22)`. -/
def jsonReplaceQuotes (s : String) : String :=
  String.mk (s.toList.map (fun c => if c == '\x27' then '"' else c))

/-- `AgentService.parseValuesString`: normalise quotes, wrap in brackets,
`JSON.parse`; a parse failure is rethrown as
`Invalid values format: <message>`. -/
def parseValuesString (valuesString : String) : Except String Json :=
  match jsonParse ("[" ++ jsonReplaceQuotes valuesString ++ "]") with
  | Except.ok v => Except.ok v
  | Except.error e => Except.error ("Invalid values format: " ++ e)

/-! ## `AgentService.processMessage` -/

/-- Guard of the first pivot branch:
`lowerMessage.includes(\x27pivot table\x27) || lowerMessage.includes(\x27pivot\x27)`. -/
def wantsPivot (lowerMessage : String) : Bool :=
  includesStr lowerMessage "pivot table" || includesStr lowerMessage "pivot"

/-- Guard of the read branch. -/
def wantsRead (lowerMessage : String) : Bool :=
  includesStr lowerMessage "read" || includesStr lowerMessage "show" ||
  includesStr lowerMessage "what"

/-- Guard of the cell-write branch. -/
def wantsWrite (lowerMessage : String) : Bool :=
  includesStr lowerMessage "write" || includesStr lowerMessage "put" ||
  includesStr lowerMessage "set"

/-- Guard of the range-write branch. -/
def wantsRangeWrite (lowerMessage : String) : Bool :=
  includesStr lowerMessage "range" &&
  (includesStr lowerMessage "write" || includesStr lowerMessage "fill")

/-- Guard of the selection branch. -/
def wantsSelection (lowerMessage : String) : Bool :=
  includesStr lowerMessage "selected" || includesStr lowerMessage "selection"

/-- The first pivot branch: five independent optional patterns over the
lowercased message, each falling back to a fixed default. -/
def pivotBranch (lowerMessage : String) : AgentResponse :=
  let lm := lowerMessage.toList
  let sourceRange := (matchFromRange lm).getD "A1:D10"
  let destinationRange := (matchToCell lm).getD "F1"
  let rows := match matchRowsAs lm with
    | some r => [trimStr r]
    | none => ["Category"]
  let columns := match matchColumnsAs lm with
    | some c => [trimStr c]
    | none => ["Region"]
  let values := match matchSumThe lm with
    | some v => [PivotValueField.mk (trimStr v) "sum"]
    | none => [PivotValueField.mk "Sales" "sum"]
  let instructions :=
    "I\x27ll create a pivot table with the following configuration:\n- Source Range: "
      ++ sourceRange ++ "\n- Destination Range: " ++ destinationRange
      ++ "\n- Rows: " ++ String.intercalate ", " rows
      ++ "\n- Columns: " ++ String.intercalate ", " columns
      ++ "\n- Values: "
      ++ String.intercalate ", "
           (values.map (fun v => v.field ++ " (" ++ v.func ++ ")"))
  { message := "I can help you create a pivot table. Here are the step-by-step instructions:"
  , body := some instructions
  , action := some
      { type := AgentActionType.CREATE_PIVOT_TABLE
      , data := AgentActionData.pivot sourceRange destinationRange rows columns values } }

/-- The TypeError diagnostic raised when `worksheet.ranges[0]` is undefined
(V8 wording; the catch of the read branch turns it into a local message). -/
def undefinedRangesMsg : String :=
  "Cannot read properties of undefined (reading \x27values\x27)"

/-- The read branch: fetch the current worksheet, format its first range. -/
def readBranch (port : Port) : AgentResponse × List PortCall :=
  match port.getCurrentWorksheet with
  | Except.ok ws =>
    match ws.ranges with
    | [] =>
      ({ message := "Error reading worksheet: " ++ undefinedRangesMsg },
       [PortCall.getCurrentWorksheet])
    | r0 :: _ =>
      ({ message := "Here\x27s what I found in the worksheet \"" ++ ws.name ++ "\":"
       , action := some
           { type := AgentActionType.READ_RANGE, data := AgentActionData.readRange r0 }
       , body := some (formatWorksheetOutput r0.values) },
       [PortCall.getCurrentWorksheet])
  | Except.error e =>
    ({ message := "Error reading worksheet: " ++ e }, [PortCall.getCurrentWorksheet])

/-- The cell-write branch; `none` when either the cell-address or the value
token is missing (the rule falls through to the next one). -/
def writeCellBranch (port : Port) (message : String) :
    Option (AgentResponse × List PortCall) :=
  match matchCellRef message, matchValueRest message with
  | some cellAddress, some rawValue =>
    let value := trimStr rawValue
    some
      (match port.writeToCell cellAddress (Json.str value) with
       | Except.ok _ =>
         ({ message := "I\x27ve written the value \"" ++ value ++ "\" to cell " ++ cellAddress
          , action := some
              { type := AgentActionType.WRITE_CELL
              , data := AgentActionData.writeCell cellAddress value } },
          [PortCall.writeToCell cellAddress (Json.str value)])
       | Except.error e =>
         ({ message := "Error writing to cell: " ++ e },
          [PortCall.writeToCell cellAddress (Json.str value)]))
  | _, _ => none

/-- The range-write branch; `none` when either token is missing.  A parse
failure of the bracket text is caught before any document call. -/
def writeRangeBranch (port : Port) (message : String) :
    Option (AgentResponse × List PortCall) :=
  match matchRangeAddr message, matchValuesBracket message with
  | some rangeAddress, some valuesString =>
    some
      (match parseValuesString valuesString with
       | Except.error e => ({ message := "Error writing to range: " ++ e }, [])
       | Except.ok values =>
         match port.writeToRange rangeAddress values with
         | Except.ok _ =>
           ({ message := "I\x27ve written values to range " ++ rangeAddress
            , action := some
                { type := AgentActionType.WRITE_RANGE
                , data := AgentActionData.writeRange rangeAddress values } },
            [PortCall.writeToRange rangeAddress values])
         | Except.error e =>
           ({ message := "Error writing to range: " ++ e },
            [PortCall.writeToRange rangeAddress values]))
  | _, _ => none

/-- The selection branch. -/
def selectionBranch (port : Port) : AgentResponse × List PortCall :=
  match port.getSelectedRange with
  | Except.ok range =>
    ({ message := "Here\x27s what\x27s in the selected range " ++ range.address ++ ":\n"
         ++ stringifyIndent 0 (Json.arr (range.values.map Json.arr))
     , action := some
         { type := AgentActionType.READ_RANGE, data := AgentActionData.readRange range } },
     [PortCall.getSelectedRange])
  | Except.error e =>
    ({ message := "Error reading selected range: " ++ e }, [PortCall.getSelectedRange])

/-- The second (manual-instructions) pivot branch. -/
def pivotRegexBranch (message : String) : AgentResponse :=
  let sourceRange := (matchFromWs message).getD ""
  let destinationRange := (matchToWs message).getD ""
  let rows := match matchRowsColon message with
    | some c => (splitOnChar ',' c).map trimStr
    | none => []
  let columns := match matchColumnsColon message with
    | some c => (splitOnChar ',' c).map trimStr
    | none => []
  let values := match matchValuesColon message with
    | some c => (splitOnChar ',' c).map trimStr
    | none => []
  let instructions := String.intercalate "\n"
    (([ "To create this pivot table manually:"
      , "1. Select your data range: " ++ sourceRange
      , "2. Go to Insert > PivotTable"
      , "3. Choose \"New Worksheet\" or select a location"
      , "4. In the PivotTable Fields pane:"
      , if rows.length > 0 then
          "   - Drag these fields to Rows: " ++ String.intercalate ", " rows
        else ""
      , if columns.length > 0 then
          "   - Drag these fields to Columns: " ++ String.intercalate ", " columns
        else ""
      , if values.length > 0 then
          "   - Drag these fields to Values: " ++ String.intercalate ", " values
        else ""
      , "5. Adjust the layout and formatting as needed"
      ] : List String).filter (fun s => !s.isEmpty))
  { message := "I can help you create a pivot table. Here are the step-by-step instructions:"
  , body := some instructions
  , action := some
      { type := AgentActionType.CREATE_PIVOT_TABLE
      , data := AgentActionData.pivotManual sourceRange destinationRange rows columns values } }

/-- The fallback help response for unrecognised commands. -/
def defaultResponse : AgentResponse :=
  { message := "I can help you read and write to Excel. Try commands like:\n"
      ++ "- \x27Read the current worksheet\x27\n"
      ++ "- \x27Write value 42 to cell A1\x27\n"
      ++ "- \x27Write range A1:B3 values [[1,2],[3,4],[5,6]]\x27\n"
      ++ "- \x27Show me what\x27s in the selected range\x27" }

/-- `AgentService.processMessage` (the `src/unnamed/part_005` version; the
named `AgentService.ts` version is the same function without the two pivot
branches and with a plain-JSON read message).  The early `return`s of the
source become the first defined branch of this chain. -/
def processMessage (port : Port) (message : String) :
    AgentResponse × List PortCall :=
  let lowerMessage := toLowerStr message
  if wantsPivot lowerMessage then (pivotBranch lowerMessage, [])
  else if wantsRead lowerMessage then readBranch port
  else
    match (if wantsWrite lowerMessage then writeCellBranch port message else none) with
    | some result => result
    | none =>
      match (if wantsRangeWrite lowerMessage then writeRangeBranch port message
             else none) with
      | some result => result
      | none =>
        if wantsSelection lowerMessage then selectionBranch port
        else if createPivotTest lowerMessage.toList then (pivotRegexBranch message, [])
        else (defaultResponse, [])

/-! ## `ExcelActionExecutor` -/

/-- `ExcelAction` of the protocol: `type` is a string on the wire (the enum
values are string literals and a remote backend can send anything), `data`
is the payload.  Only the fields the executing handlers read are modelled;
`value` and `values` default like absent JS properties. -/
structure ExecData where
  address : String := ""
  value : Json := Json.null
  values : Json := Json.null

structure ExcelAction where
  type : String
  data : ExecData
  description : Option String := none

/-- The `ExcelActionType` enum values (the cases of the executor switch). -/
def knownTypes : List String :=
  [ "WRITE_CELL", "WRITE_RANGE", "READ_CELL", "READ_RANGE"
  , "CREATE_PIVOT_TABLE", "INSERT_FORMULA", "CREATE_CHART"
  , "APPLY_CONDITIONAL_FORMATTING", "CREATE_WORKSHEET", "DELETE_WORKSHEET"
  , "RENAME_WORKSHEET", "FORMAT_CELL", "FORMAT_RANGE", "APPLY_FILTER"
  , "APPLY_DATA_VALIDATION", "CUSTOM" ]

/-- `ExcelActionExecutor.executeAction`: a switch on `action.type`.  The
write handlers call the document port; the other recognised handlers only
`console.log` (no document call); the default case only `console.warn`s.
The catch of the source rethrows, so a failed port call propagates as
`Except.error`.  The second component is the trace of attempted port calls. -/
def executeAction (port : Port) (action : ExcelAction) :
    Except String Unit × List PortCall :=
  match action.type with
  | "WRITE_CELL" =>
    (match port.writeToCell action.data.address action.data.value with
     | Except.ok _ => Except.ok ()
     | Except.error e => Except.error e,
     [PortCall.writeToCell action.data.address action.data.value])
  | "WRITE_RANGE" =>
    (match port.writeToRange action.data.address action.data.values with
     | Except.ok _ => Except.ok ()
     | Except.error e => Except.error e,
     [PortCall.writeToRange action.data.address action.data.values])
  | "READ_CELL" => (Except.ok (), [])
  | "READ_RANGE" => (Except.ok (), [])
  | "CREATE_PIVOT_TABLE" => (Except.ok (), [])
  | "INSERT_FORMULA" => (Except.ok (), [])
  | "CREATE_CHART" => (Except.ok (), [])
  | "APPLY_CONDITIONAL_FORMATTING" => (Except.ok (), [])
  | "CREATE_WORKSHEET" => (Except.ok (), [])
  | "DELETE_WORKSHEET" => (Except.ok (), [])
  | "RENAME_WORKSHEET" => (Except.ok (), [])
  | "FORMAT_CELL" => (Except.ok (), [])
  | "FORMAT_RANGE" => (Except.ok (), [])
  | "APPLY_FILTER" => (Except.ok (), [])
  | "APPLY_DATA_VALIDATION" => (Except.ok (), [])
  | "CUSTOM" => (Except.ok (), [])
  | _ => (Except.ok (), [])

/-- `ExcelActionExecutor.executeActions`: a sequential `for ... await` loop;
a thrown error propagates out of the loop, so the remaining actions are
never attempted. -/
def executeActions (port : Port) : List ExcelAction → Except String Unit × List PortCall
  | [] => (Except.ok (), [])
  | a :: rest =>
    match executeAction port a with
    | (Except.ok _, t) =>
      match executeActions port rest with
      | (r2, t2) => (r2, t ++ t2)
    | (Except.error e, t) => (Except.error e, t)

/-- Concatenated trace of a list of actions, each executed alone. -/
def tracesOf (port : Port) (actions : List ExcelAction) : List PortCall :=
  (actions.map (fun a => (executeAction port a).2)).flatten

/-! ## Concrete fixtures for witnesses and counterexamples -/

/-- A port on which every operation fails (nothing is reachable). -/
def stubPort : Port :=
  { getCurrentWorksheet := Except.error "not available"
  , writeToCell := fun _ _ => Except.error "not available"
  , writeToRange := fun _ _ => Except.error "not available"
  , getSelectedRange := Except.error "not available" }

def demoWorksheet : Worksheet :=
  { name := "Sheet1"
  , ranges := [{ address := "A1:B2"
               , values := [[Json.str "x", Json.num 1], [Json.null, Json.null]] }] }

/-- A port on which every operation succeeds. -/
def okPort : Port :=
  { getCurrentWorksheet := Except.ok demoWorksheet
  , writeToCell := fun _ _ => Except.ok ()
  , writeToRange := fun _ _ => Except.ok ()
  , getSelectedRange := Except.ok { address := "A1:B1", values := [[Json.str "x"]] } }

/-- A port that fails exactly on cell writes to the address `BAD`. -/
def failBadPort : Port :=
  { getCurrentWorksheet := Except.error "not available"
  , writeToCell := fun addr _ =>
      if addr == "BAD" then Except.error "Invalid cell address" else Except.ok ()
  , writeToRange := fun _ _ => Except.ok ()
  , getSelectedRange := Except.error "not available" }

def goodWriteA1 : ExcelAction :=
  { type := "WRITE_CELL", data := { address := "A1", value := Json.str "1" } }

def badWrite : ExcelAction :=
  { type := "WRITE_CELL", data := { address := "BAD", value := Json.str "2" } }

def goodWriteC1 : ExcelAction :=
  { type := "WRITE_CELL", data := { address := "C1", value := Json.str "3" } }

def unknownAction : ExcelAction :=
  { type := "UNKNOWN_ACTION", data := {} }

/-- The matrix of the range-write scenario, as parsed JSON. -/
def c6Values : Json :=
  Json.arr
    [ Json.arr [Json.num 1, Json.num 2]
    , Json.arr [Json.num 3, Json.num 4]
    , Json.arr [Json.num 5, Json.num 6] ]

/-- The pivot scenario input of the spec (and of the example text inside the
source's own pivot error fallback). -/
def c4Input : String :=
  "create a pivot table from A1:D10 to F1 with rows: Product, columns: Region, values: Sales"

/-- A range-write command with a malformed bracket literal (a doubled comma),
used to witness the malformed-values claim. -/
def c7Input : String := "fill range A1:B2 values [[1,,2]]"

/-! ## Helper lemmas about the substring scanner -/

theorem hasSub_nil_pattern (l : List Char) : hasSub l [] = true := by
  cases l <;> simp [hasSub, prefAt]

theorem hasSub_of_tail {t : List Char} {p : List Char} (c : Char)
    (h : hasSub t p = true) : hasSub (c :: t) p = true := by
  simp [hasSub, h]

theorem hasSub_of_drop {p : List Char} :
    ∀ (n : Nat) (l : List Char), hasSub (l.drop n) p = true → hasSub l p = true := by
  intro n
  induction n with
  | zero => intro l h; simpa using h
  | succ n ih =>
    intro l h
    cases l with
    | nil => simpa using h
    | cons c t => exact hasSub_of_tail c (ih t (by simpa using h))

theorem prefAt_append {p s : List Char} (u : List Char)
    (h : prefAt p s = true) : prefAt p (s ++ u) = true := by
  induction p generalizing s with
  | nil => simp [prefAt]
  | cons c p ih =>
    cases s with
    | nil => simp [prefAt] at h
    | cons d t =>
      simp only [prefAt, Bool.and_eq_true] at h
      simp only [List.cons_append, prefAt, Bool.and_eq_true]
      exact ⟨h.1, ih h.2⟩

theorem hasSub_of_prefAt {p l : List Char} (h : prefAt p l = true) :
    hasSub l p = true := by
  cases l with
  | nil =>
    cases p with
    | nil => simp [hasSub]
    | cons c t => simp [prefAt] at h
  | cons c t => simp [hasSub, h]

theorem hasSub_of_takeWhile {p : List Char} (q : Char → Bool) :
    ∀ l : List Char, hasSub (l.takeWhile q) p = true → hasSub l p = true := by
  intro l
  induction l with
  | nil => simp
  | cons c t ih =>
    intro h
    by_cases hq : q c = true
    · rw [List.takeWhile_cons, if_pos hq] at h
      simp only [hasSub, Bool.or_eq_true] at h
      rcases h with h | h
      · have h2 : prefAt p ((c :: t.takeWhile q) ++ t.dropWhile q) = true :=
          prefAt_append _ h
        rw [List.cons_append, List.takeWhile_append_dropWhile] at h2
        exact hasSub_of_prefAt h2
      · exact hasSub_of_tail c (ih h)
    · rw [List.takeWhile_cons, if_neg hq] at h
      simp only [hasSub] at h
      cases p with
      | nil => exact hasSub_nil_pattern _
      | cons d u => simp at h

theorem hasSub_of_dropAfterSub {p : List Char} :
    ∀ {l r : List Char}, dropAfterSub p l = some r → hasSub l p = true := by
  intro l
  induction l with
  | nil =>
    intro r h
    simp only [dropAfterSub] at h
    split at h
    · simpa [hasSub] using ‹p.isEmpty = true›
    · exact absurd h (by simp)
  | cons c t ih =>
    intro r h
    simp only [dropAfterSub] at h
    split at h
    · exact hasSub_of_prefAt ‹prefAt p (c :: t) = true›
    · exact hasSub_of_tail c (ih h)

theorem hasSub_pivot_of_tryCreatePivot {s : List Char}
    (h : tryCreatePivot s = true) : hasSub s ("pivot".toList) = true := by
  unfold tryCreatePivot at h
  split at h
  · split at h
    · next r hr =>
      have h1 : hasSub (segUntilNL (s.drop 6)) ("pivot".toList) = true :=
        hasSub_of_dropAfterSub hr
      have h2 : hasSub (s.drop 6) ("pivot".toList) = true :=
        hasSub_of_takeWhile _ _ h1
      exact hasSub_of_drop 6 s h2
    · exact absurd h (by simp)
  · exact absurd h (by simp)

theorem hasSub_pivot_of_createPivotTest :
    ∀ {s : List Char}, createPivotTest s = true → hasSub s ("pivot".toList) = true := by
  intro s
  induction s with
  | nil => intro h; simp [createPivotTest] at h
  | cons c t ih =>
    intro h
    simp only [createPivotTest, Bool.or_eq_true] at h
    rcases h with h | h
    · exact hasSub_pivot_of_tryCreatePivot h
    · exact hasSub_of_tail c (ih h)

theorem createPivotTest_eq_false_of_no_pivot {lm : String}
    (h : includesStr lm "pivot" = false) : createPivotTest lm.toList = false := by
  by_contra hne
  have ht : createPivotTest lm.toList = true := by
    cases hcp : createPivotTest lm.toList
    · exact absurd hcp hne
    · rfl
  have := hasSub_pivot_of_createPivotTest ht
  rw [includesStr] at h
  rw [h] at this
  exact Bool.false_ne_true this

/-! ## Column letters: the source loop equals bijective base-26 numbering -/

theorem getColumnLetterAux_eq_bijective (n : Nat) :
    getColumnLetterAux n = bijectiveBase26 (n + 1) := by
  induction n using Nat.strong_induction_on with
  | _ n ih =>
    by_cases h : n < 26
    · rw [getColumnLetterAux, bijectiveBase26]
      rw [if_pos h, if_pos (by omega)]
      have harg : 65 + n % 26 = 64 + (n + 1) := by
        rw [Nat.mod_eq_of_lt h]
        omega
      rw [harg]
    · rw [getColumnLetterAux, bijectiveBase26]
      rw [if_neg h, if_neg (by omega)]
      simp only [Nat.add_sub_cancel]
      have hge : 26 ≤ n := Nat.le_of_not_lt h
      have hd : 1 ≤ n / 26 := (Nat.le_div_iff_mul_le (by omega)).mpr (by omega)
      have hrec := ih (n / 26 - 1)
        (by
          have : n / 26 < n := Nat.div_lt_self (by omega) (by omega)
          omega)
      rw [hrec]
      have hx : n / 26 - 1 + 1 = n / 26 := by omega
      rw [hx]
      have harg : 65 + n % 26 = 64 + n % 26 + 1 := by omega
      rw [harg]

/-! ## Dispatch lemmas for `processMessage` (one per rule of the priority list) -/

theorem processMessage_pivot (port : Port) (message : String)
    (h : wantsPivot (toLowerStr message) = true) :
    processMessage port message = (pivotBranch (toLowerStr message), []) := by
  unfold processMessage
  simp only [h, if_true]

theorem processMessage_read (port : Port) (message : String)
    (h1 : wantsPivot (toLowerStr message) = false)
    (h2 : wantsRead (toLowerStr message) = true) :
    processMessage port message = readBranch port := by
  unfold processMessage
  simp only [h1, h2, if_true, if_false, Bool.false_eq_true]

theorem processMessage_writeCell (port : Port) (message : String)
    (r : AgentResponse × List PortCall)
    (h1 : wantsPivot (toLowerStr message) = false)
    (h2 : wantsRead (toLowerStr message) = false)
    (h3 : wantsWrite (toLowerStr message) = true)
    (h4 : writeCellBranch port message = some r) :
    processMessage port message = r := by
  unfold processMessage
  simp only [h1, h2, h3, h4, if_true, if_false, Bool.false_eq_true]

theorem processMessage_writeRange (port : Port) (message : String)
    (r : AgentResponse × List PortCall)
    (h1 : wantsPivot (toLowerStr message) = false)
    (h2 : wantsRead (toLowerStr message) = false)
    (h3 : wantsWrite (toLowerStr message) = false ∨ writeCellBranch port message = none)
    (h4 : wantsRangeWrite (toLowerStr message) = true)
    (h5 : writeRangeBranch port message = some r) :
    processMessage port message = r := by
  unfold processMessage
  rcases h3 with h3 | h3 <;>
    simp only [h1, h2, h3, h4, h5, if_true, if_false, ite_self, Bool.false_eq_true]

theorem processMessage_selection (port : Port) (message : String)
    (h1 : wantsPivot (toLowerStr message) = false)
    (h2 : wantsRead (toLowerStr message) = false)
    (h3 : wantsWrite (toLowerStr message) = false ∨ writeCellBranch port message = none)
    (h4 : wantsRangeWrite (toLowerStr message) = false ∨ writeRangeBranch port message = none)
    (h5 : wantsSelection (toLowerStr message) = true) :
    processMessage port message = selectionBranch port := by
  unfold processMessage
  rcases h3 with h3 | h3 <;> rcases h4 with h4 | h4 <;>
    simp only [h1, h2, h3, h4, h5, if_true, if_false, ite_self, Bool.false_eq_true]

theorem processMessage_fallback (port : Port) (message : String)
    (h1 : wantsPivot (toLowerStr message) = false)
    (h2 : wantsRead (toLowerStr message) = false)
    (h3 : wantsWrite (toLowerStr message) = false ∨ writeCellBranch port message = none)
    (h4 : wantsRangeWrite (toLowerStr message) = false ∨ writeRangeBranch port message = none)
    (h5 : wantsSelection (toLowerStr message) = false) :
    processMessage port message = (defaultResponse, []) := by
  have hpv : includesStr (toLowerStr message) "pivot" = false := by
    unfold wantsPivot at h1
    exact (Bool.or_eq_false_iff.mp h1).2
  have hcp : createPivotTest (toLowerStr message).toList = false :=
    createPivotTest_eq_false_of_no_pivot hpv
  unfold processMessage
  rcases h3 with h3 | h3 <;> rcases h4 with h4 | h4 <;>
    simp only [h1, h2, h3, h4, h5, hcp, if_true, if_false, ite_self, Bool.false_eq_true]

/-! ## Sequencing lemmas for the executor -/

theorem executeActions_cons_ok (port : Port) (a : ExcelAction)
    (rest : List ExcelAction) (h : (executeAction port a).1 = Except.ok ()) :
    executeActions port (a :: rest) =
      ((executeActions port rest).1,
       (executeAction port a).2 ++ (executeActions port rest).2) := by
  rcases hEq : executeAction port a with ⟨r, t⟩
  rw [hEq] at h
  simp only at h
  subst h
  simp only [executeActions, hEq]

theorem executeActions_cons_err (port : Port) (a : ExcelAction)
    (rest : List ExcelAction) (e : String)
    (h : (executeAction port a).1 = Except.error e) :
    executeActions port (a :: rest) = (Except.error e, (executeAction port a).2) := by
  rcases hEq : executeAction port a with ⟨r, t⟩
  rw [hEq] at h
  simp only at h
  subst h
  simp only [executeActions, hEq]

/-! ## Claim C9 -/

/-- Claim C9: for every column index `n ≥ 0`, `getColumnLetter` equals
standard base-26 bijective numbering (index 0 ↦ "A", 25 ↦ "Z", 26 ↦ "AA"),
with no off-by-one drift at the 26-boundary. -/
theorem c9_column_letters_bijective_base26 :
    (∀ n : Nat, getColumnLetter n = specColumnLetter n) ∧
    getColumnLetter 0 = "A" ∧ getColumnLetter 25 = "Z" ∧
    getColumnLetter 26 = "AA" := by
  refine ⟨fun n => getColumnLetterAux_eq_bijective n, ?_, ?_, ?_⟩
  · show getColumnLetterAux 0 = "A"
    simp [getColumnLetterAux]
  · show getColumnLetterAux 25 = "Z"
    simp [getColumnLetterAux]
  · show getColumnLetterAux 26 = "AA"
    simp [getColumnLetterAux]

/-! ## Claim C1 -/

/-- Claim C1 (counterexample): a batch of two actions whose first fails at
the document boundary does not yield two outcomes; `executeActions`
propagates the error of the failing action and the second action is never
attempted (the trace holds a single call), so execution does not continue
past a failed action. -/
theorem c1_counterexample_batch_aborted :
    (executeActions failBadPort [badWrite, goodWriteC1]).1 =
      Except.error "Invalid cell address" ∧
    (executeActions failBadPort [badWrite, goodWriteC1]).2 =
      [PortCall.writeToCell "BAD" (Json.str "2")] ∧
    (executeActions failBadPort [badWrite, goodWriteC1]).2.length ≠ 2 := by
  exact ⟨rfl, rfl, by decide⟩

/-- Claim C1 (amended): `executeActions` runs the batch strictly in input
order and aborts at the first failing action: the actions before it execute
in order (their document calls form the leading trace), the failing action's
error propagates to the caller, and the actions after it are never
attempted; no per-action outcome list exists. -/
theorem c1_executor_aborts_at_first_failure (port : Port) (e : String)
    (xs : List ExcelAction) (a : ExcelAction) (ys : List ExcelAction)
    (hxs : ∀ x ∈ xs, (executeAction port x).1 = Except.ok ())
    (ha : (executeAction port a).1 = Except.error e) :
    executeActions port (xs ++ a :: ys) =
      (Except.error e, tracesOf port xs ++ (executeAction port a).2) := by
  induction xs with
  | nil =>
    simp only [List.nil_append, tracesOf, List.map_nil, List.flatten_nil]
    exact executeActions_cons_err port a ys e ha
  | cons x xs ih =>
    have hx : (executeAction port x).1 = Except.ok () :=
      hxs x (List.mem_cons_self x xs)
    have hrest : ∀ y ∈ xs, (executeAction port y).1 = Except.ok () :=
      fun y hy => hxs y (List.mem_cons_of_mem x hy)
    rw [List.cons_append, executeActions_cons_ok port x (xs ++ a :: ys) hx,
      ih hrest]
    simp [tracesOf, List.append_assoc]

/-- Witness for the amended C1 theorem at a concrete three-action batch. -/
theorem c1_executor_aborts_at_first_failure_witness :
    (∀ x ∈ [goodWriteA1], (executeAction failBadPort x).1 = Except.ok ()) ∧
    (executeAction failBadPort badWrite).1 = Except.error "Invalid cell address" ∧
    executeActions failBadPort ([goodWriteA1] ++ badWrite :: [goodWriteC1]) =
      (Except.error "Invalid cell address",
       tracesOf failBadPort [goodWriteA1] ++ (executeAction failBadPort badWrite).2) := by
  have hxs : ∀ x ∈ [goodWriteA1], (executeAction failBadPort x).1 = Except.ok () := by
    intro x hx
    rw [List.mem_singleton] at hx
    subst hx
    rfl
  exact ⟨hxs, rfl,
    c1_executor_aborts_at_first_failure failBadPort "Invalid cell address"
      [goodWriteA1] badWrite [goodWriteC1] hxs rfl⟩

/-! ## Claim C2 -/

/-- Claim C2 (counterexample): an action of unknown kind is not reported as
an error — the executor resolves it as handled (`Except.ok`) with no
document call, only a console warning. -/
theorem c2_counterexample_unknown_kind_is_not_error :
    executeActions stubPort [unknownAction] = (Except.ok (), []) := rfl

/-- Claim C2 (amended): an action whose `type` is none of the recognised
kinds is never dispatched to the document (no port call, no partial
execution), but it is not reported as an error either: the executor treats
it as successfully handled and the batch continues unchanged. -/
theorem c2_unknown_kind_is_silent_noop (port : Port) (a : ExcelAction)
    (rest : List ExcelAction) (h : a.type ∉ knownTypes) :
    executeAction port a = (Except.ok (), []) ∧
    executeActions port (a :: rest) = executeActions port rest := by
  have hA : executeAction port a = (Except.ok (), []) := by
    unfold executeAction
    split <;> first
      | rfl
      | (exfalso; apply h; simp_all [knownTypes])
  refine ⟨hA, ?_⟩
  rw [executeActions_cons_ok port a rest (by rw [hA])]
  simp [hA]

/-- Witness for the amended C2 theorem. -/
theorem c2_unknown_kind_is_silent_noop_witness :
    unknownAction.type ∉ knownTypes ∧
    executeAction stubPort unknownAction = (Except.ok (), []) ∧
    executeActions stubPort [unknownAction] = executeActions stubPort [] := by
  have h := c2_unknown_kind_is_silent_noop stubPort unknownAction [] (by decide)
  exact ⟨by decide, h.1, h.2⟩

/-! ## Claim C3 -/

/-- Claim C3 (counterexample): on the input `Write value 42 to cell A1` the
resolver's write-cell action has value `"42 to cell A1"` — the greedy
`value\s+(.+)$` capture takes the whole remainder of the input — not the
value `"42"` of the claim. -/
theorem c3_counterexample_value_is_rest_of_string :
    (processMessage okPort "Write value 42 to cell A1").1.action =
      some { type := AgentActionType.WRITE_CELL
           , data := AgentActionData.writeCell "A1" "42 to cell A1" } ∧
    "42 to cell A1" ≠ "42" := by
  exact ⟨rfl, by decide⟩

/-- Claim C3 (amended): for the input `Write value 42 to cell A1`, on any
port where the cell write succeeds, the resolver yields one write-cell
action with address `"A1"` and value `"42 to cell A1"` (the whole text after
`value`), the write is attempted exactly once and succeeds, and the response
message contains both `"A1"` and `"42"`. -/
theorem c3_write_value_42_amended (port : Port)
    (h : port.writeToCell "A1" (Json.str "42 to cell A1") = Except.ok ()) :
    processMessage port "Write value 42 to cell A1" =
      ({ message := "I\x27ve written the value \"42 to cell A1\" to cell A1"
       , action := some { type := AgentActionType.WRITE_CELL
                        , data := AgentActionData.writeCell "A1" "42 to cell A1" } },
       [PortCall.writeToCell "A1" (Json.str "42 to cell A1")]) ∧
    includesStr "I\x27ve written the value \"42 to cell A1\" to cell A1" "A1" = true ∧
    includesStr "I\x27ve written the value \"42 to cell A1\" to cell A1" "42" = true := by
  refine ⟨?_, by decide, by decide⟩
  have step : processMessage port "Write value 42 to cell A1" =
      (match port.writeToCell "A1" (Json.str "42 to cell A1") with
       | Except.ok _ =>
         ({ message := "I\x27ve written the value \"42 to cell A1\" to cell A1"
          , action := some { type := AgentActionType.WRITE_CELL
                           , data := AgentActionData.writeCell "A1" "42 to cell A1" } },
          [PortCall.writeToCell "A1" (Json.str "42 to cell A1")])
       | Except.error e =>
         ({ message := "Error writing to cell: " ++ e },
          [PortCall.writeToCell "A1" (Json.str "42 to cell A1")])) := rfl
  rw [step, h]

/-- Witness for the amended C3 theorem on a port whose writes succeed. -/
theorem c3_write_value_42_amended_witness :
    okPort.writeToCell "A1" (Json.str "42 to cell A1") = Except.ok () ∧
    (processMessage okPort "Write value 42 to cell A1").1.message =
      "I\x27ve written the value \"42 to cell A1\" to cell A1" := by
  have h := c3_write_value_42_amended okPort rfl
  exact ⟨rfl, by rw [h.1]⟩

/-! ## Claim C4 -/

/-- Claim C4 (code bug): the scenario input lands in the first pivot branch
(`includes(\x27pivot\x27)` wins), whose `rows as` / `columns as` / `sum the`
patterns do not match the `rows:` syntax of the input, so the action carries
the defaults `rows = ["Category"]` and the lowercased ranges `"a1:d10"`,
`"f1"` — not `rows = ["Product"]`, `"A1:D10"`, `"F1"` as claimed.  The
second parser of the same function (unreachable, because any input it
accepts contains `pivot`) extracts exactly the documented fields. -/
theorem c4_pivot_scenario_defaults_bug :
    (processMessage stubPort c4Input).1.action =
      some { type := AgentActionType.CREATE_PIVOT_TABLE
           , data := AgentActionData.pivot "a1:d10" "f1" ["Category"] ["Region"]
               [PivotValueField.mk "Sales" "sum"] } ∧
    (processMessage stubPort c4Input).2 = [] ∧
    matchFromWs c4Input = some "A1:D10" ∧
    matchToWs c4Input = some "F1" ∧
    matchRowsColon c4Input = some "Product" ∧
    matchColumnsColon c4Input = some "Region" ∧
    matchValuesColon c4Input = some "Sales" := by
  exact ⟨rfl, rfl, rfl, rfl, rfl, rfl, rfl⟩

/-! ## Claim C5 -/

/-- Claim C5: every input whose lowercased text contains `pivot` is resolved
by the first pivot branch without any document call and without failing: the
response always carries one create-pivot-table action whose five fields come
from five independent optional patterns, each replaced by its fixed default
(source `A1:D10`, destination `F1`, row `Category`, column `Region`, value
`Sales`/`sum`) exactly when its pattern fails to match. -/
theorem c5_pivot_never_fails_with_defaults (port : Port) (message : String)
    (h : includesStr (toLowerStr message) "pivot" = true) :
    processMessage port message = (pivotBranch (toLowerStr message), []) ∧
    (pivotBranch (toLowerStr message)).action =
      some { type := AgentActionType.CREATE_PIVOT_TABLE
           , data := AgentActionData.pivot
               ((matchFromRange (toLowerStr message).toList).getD "A1:D10")
               ((matchToCell (toLowerStr message).toList).getD "F1")
               (match matchRowsAs (toLowerStr message).toList with
                | some r => [trimStr r]
                | none => ["Category"])
               (match matchColumnsAs (toLowerStr message).toList with
                | some c => [trimStr c]
                | none => ["Region"])
               (match matchSumThe (toLowerStr message).toList with
                | some v => [PivotValueField.mk (trimStr v) "sum"]
                | none => [PivotValueField.mk "Sales" "sum"]) } := by
  have hp : wantsPivot (toLowerStr message) = true := by
    unfold wantsPivot
    rw [h]
    simp
  exact ⟨processMessage_pivot port message hp, rfl⟩

/-- Witness for C5 at an input where every optional pattern fails, so every
field takes its documented default. -/
theorem c5_pivot_never_fails_with_defaults_witness :
    includesStr (toLowerStr "make a pivot please") "pivot" = true ∧
    (processMessage stubPort "make a pivot please").1.action =
      some { type := AgentActionType.CREATE_PIVOT_TABLE
           , data := AgentActionData.pivot "A1:D10" "F1" ["Category"] ["Region"]
               [PivotValueField.mk "Sales" "sum"] } := by
  have h := c5_pivot_never_fails_with_defaults stubPort "make a pivot please" (by decide)
  refine ⟨by decide, ?_⟩
  rw [h.1]
  rfl

/-! ## Claim C6 -/

/-- Claim C6: for the input `Write range A1:B3 values [[1,2],[3,4],[5,6]]`,
on any port where the range write succeeds, the resolver yields one
write-range action with address `"A1:B3"` and values equal to the matrix
`[[1,2],[3,4],[5,6]]` (the bracket text parsed as a JSON array after quote
normalisation), and performs exactly that one write. -/
theorem c6_write_range_scenario (port : Port)
    (h : port.writeToRange "A1:B3" c6Values = Except.ok ()) :
    processMessage port "Write range A1:B3 values [[1,2],[3,4],[5,6]]" =
      ({ message := "I\x27ve written values to range A1:B3"
       , action := some { type := AgentActionType.WRITE_RANGE
                        , data := AgentActionData.writeRange "A1:B3" c6Values } },
       [PortCall.writeToRange "A1:B3" c6Values]) ∧
    parseValuesString "[1,2],[3,4],[5,6]" = Except.ok c6Values := by
  refine ⟨?_, rfl⟩
  have step : processMessage port "Write range A1:B3 values [[1,2],[3,4],[5,6]]" =
      (match port.writeToRange "A1:B3" c6Values with
       | Except.ok _ =>
         ({ message := "I\x27ve written values to range A1:B3"
          , action := some { type := AgentActionType.WRITE_RANGE
                           , data := AgentActionData.writeRange "A1:B3" c6Values } },
          [PortCall.writeToRange "A1:B3" c6Values])
       | Except.error e =>
         ({ message := "Error writing to range: " ++ e },
          [PortCall.writeToRange "A1:B3" c6Values])) := rfl
  rw [step, h]

/-- Witness for C6 on a port whose writes succeed. -/
theorem c6_write_range_scenario_witness :
    okPort.writeToRange "A1:B3" c6Values = Except.ok () ∧
    (processMessage okPort "Write range A1:B3 values [[1,2],[3,4],[5,6]]").1.message =
      "I\x27ve written values to range A1:B3" := by
  have h := c6_write_range_scenario okPort rfl
  exact ⟨rfl, by rw [h.1]⟩

/-! ## Claim C7 -/

/-- Claim C7: for every input that reaches the range-write rule with both
tokens present but whose bracket text fails to parse, the resolver returns a
local failure response carrying the parser's diagnostic (prefixed by the
catch of the source as `Error writing to range: Invalid values format: ...`),
with no action, no exception and no document call at all — in particular no
partial write. -/
theorem c7_malformed_values_local_failure (port : Port)
    (message addr cap e : String)
    (h1 : wantsPivot (toLowerStr message) = false)
    (h2 : wantsRead (toLowerStr message) = false)
    (h3 : wantsWrite (toLowerStr message) = false ∨
          matchCellRef message = none ∨ matchValueRest message = none)
    (h4 : wantsRangeWrite (toLowerStr message) = true)
    (h5 : matchRangeAddr message = some addr)
    (h6 : matchValuesBracket message = some cap)
    (h7 : parseValuesString cap = Except.error e) :
    processMessage port message =
      ({ message := "Error writing to range: " ++ e }, []) := by
  have hcell : wantsWrite (toLowerStr message) = false ∨
      writeCellBranch port message = none := by
    rcases h3 with h3 | h3 | h3
    · exact Or.inl h3
    · refine Or.inr ?_
      cases hmv : matchValueRest message <;> simp [writeCellBranch, h3, hmv]
    · refine Or.inr ?_
      cases hmc : matchCellRef message <;> simp [writeCellBranch, h3, hmc]
  have hrange : writeRangeBranch port message =
      some ({ message := "Error writing to range: " ++ e }, []) := by
    simp only [writeRangeBranch, h5, h6, h7]
  exact processMessage_writeRange port message _ h1 h2 hcell h4 hrange

/-- Witness for C7 at a concrete malformed range-write command. -/
theorem c7_malformed_values_local_failure_witness :
    wantsRangeWrite (toLowerStr c7Input) = true ∧
    matchRangeAddr c7Input = some "A1:B2" ∧
    matchValuesBracket c7Input = some "[1,,2]" ∧
    parseValuesString "[1,,2]" =
      Except.error "Invalid values format: Unexpected token , in JSON" ∧
    processMessage okPort c7Input =
      ({ message := "Error writing to range: Invalid values format: Unexpected token , in JSON" },
       []) := by
  refine ⟨by decide, rfl, rfl, rfl, ?_⟩
  exact c7_malformed_values_local_failure okPort c7Input "A1:B2" "[1,,2]"
    "Invalid values format: Unexpected token , in JSON"
    (by decide) (by decide) (Or.inl (by decide)) (by decide) rfl rfl rfl

/-! ## Claim C8 -/

/-- Claim C8: `processMessage` classifies by first-match-wins over the fixed
priority list pivot → read → cell-write → range-write → selection →
fallback: each rule fires exactly when its guard holds and every earlier
rule declined (the cell-write and range-write rules also decline, falling
through, when their tokens are missing).  The trailing second pivot parser
of the source is unreachable — when no rule matches the result is the
fallback help response with no action — and the input `hello there` matches
no rule, yielding the fallback with zero actions. -/
theorem c8_first_match_priority (port : Port) (message : String) :
    (wantsPivot (toLowerStr message) = true →
      processMessage port message = (pivotBranch (toLowerStr message), [])) ∧
    (wantsPivot (toLowerStr message) = false →
      wantsRead (toLowerStr message) = true →
      processMessage port message = readBranch port) ∧
    (∀ r, wantsPivot (toLowerStr message) = false →
      wantsRead (toLowerStr message) = false →
      wantsWrite (toLowerStr message) = true →
      writeCellBranch port message = some r →
      processMessage port message = r) ∧
    (∀ r, wantsPivot (toLowerStr message) = false →
      wantsRead (toLowerStr message) = false →
      (wantsWrite (toLowerStr message) = false ∨ writeCellBranch port message = none) →
      wantsRangeWrite (toLowerStr message) = true →
      writeRangeBranch port message = some r →
      processMessage port message = r) ∧
    (wantsPivot (toLowerStr message) = false →
      wantsRead (toLowerStr message) = false →
      (wantsWrite (toLowerStr message) = false ∨ writeCellBranch port message = none) →
      (wantsRangeWrite (toLowerStr message) = false ∨ writeRangeBranch port message = none) →
      wantsSelection (toLowerStr message) = true →
      processMessage port message = selectionBranch port) ∧
    (wantsPivot (toLowerStr message) = false →
      wantsRead (toLowerStr message) = false →
      (wantsWrite (toLowerStr message) = false ∨ writeCellBranch port message = none) →
      (wantsRangeWrite (toLowerStr message) = false ∨ writeRangeBranch port message = none) →
      wantsSelection (toLowerStr message) = false →
      processMessage port message = (defaultResponse, []) ∧
        defaultResponse.action = none) ∧
    processMessage port "hello there" = (defaultResponse, []) := by
  refine ⟨?_, ?_, ?_, ?_, ?_, ?_, rfl⟩
  · exact fun h => processMessage_pivot port message h
  · exact fun h1 h2 => processMessage_read port message h1 h2
  · exact fun r h1 h2 h3 h4 => processMessage_writeCell port message r h1 h2 h3 h4
  · exact fun r h1 h2 h3 h4 h5 =>
      processMessage_writeRange port message r h1 h2 h3 h4 h5
  · exact fun h1 h2 h3 h4 h5 =>
      processMessage_selection port message h1 h2 h3 h4 h5
  · exact fun h1 h2 h3 h4 h5 =>
      ⟨processMessage_fallback port message h1 h2 h3 h4 h5, rfl⟩

/-- Witness for C8: `hello there` matches no rule and yields the fallback
help message with zero actions. -/
theorem c8_first_match_priority_witness :
    wantsPivot (toLowerStr "hello there") = false ∧
    wantsRead (toLowerStr "hello there") = false ∧
    wantsWrite (toLowerStr "hello there") = false ∧
    wantsRangeWrite (toLowerStr "hello there") = false ∧
    wantsSelection (toLowerStr "hello there") = false ∧
    (processMessage stubPort "hello there" = (defaultResponse, []) ∧
      defaultResponse.action = none) := by
  have h := c8_first_match_priority stubPort "hello there"
  exact ⟨by decide, by decide, by decide, by decide, by decide,
    h.2.2.2.2.2.1 (by decide) (by decide) (Or.inl (by decide))
      (Or.inl (by decide)) (by decide)⟩

/-! ## Claim C10 -/

/-- Claim C10: intent classification is substring containment on the
lowercased input: whenever the lowercased text does not contain `pivot` but
contains `read`, `show` or `what` anywhere — also inside a longer word —
`processMessage` takes the read path regardless of any `write`, `put` or
`set` occurrences: the only document call is the worksheet read (never a
write), and the response is either built from the current worksheet or is a
read-error message. -/
theorem c10_read_keywords_win_by_substring (port : Port) (message : String)
    (hp : wantsPivot (toLowerStr message) = false)
    (hr : wantsRead (toLowerStr message) = true) :
    processMessage port message = readBranch port ∧
    (∀ c ∈ (processMessage port message).2, c = PortCall.getCurrentWorksheet) ∧
    (match port.getCurrentWorksheet with
     | Except.error e =>
       (processMessage port message).1 =
         { message := "Error reading worksheet: " ++ e }
     | Except.ok ws =>
       match ws.ranges with
       | [] =>
         (processMessage port message).1 =
           { message := "Error reading worksheet: " ++ undefinedRangesMsg }
       | r0 :: _ =>
         (processMessage port message).1 =
           { message := "Here\x27s what I found in the worksheet \"" ++ ws.name ++ "\":"
           , action := some { type := AgentActionType.READ_RANGE
                            , data := AgentActionData.readRange r0 }
           , body := some (formatWorksheetOutput r0.values) }) := by
  have h := processMessage_read port message hp hr
  rw [h]
  refine ⟨rfl, ?_, ?_⟩
  · unfold readBranch
    cases port.getCurrentWorksheet with
    | ok ws =>
      obtain ⟨wname, wranges⟩ := ws
      cases wranges with
      | nil => intro c hc; simpa using hc
      | cons r0 rest => intro c hc; simpa using hc
    | error e => intro c hc; simpa using hc
  · unfold readBranch
    cases port.getCurrentWorksheet with
    | ok ws =>
      obtain ⟨wname, wranges⟩ := ws
      cases wranges with
      | nil => rfl
      | cons r0 rest => rfl
    | error e => rfl

/-- Witness for C10 at `somewhat write put set`: `what` occurs only inside
`somewhat`, the write keywords are all present, and the read path still
wins with no write call. -/
theorem c10_read_keywords_win_by_substring_witness :
    wantsPivot (toLowerStr "somewhat write put set") = false ∧
    wantsRead (toLowerStr "somewhat write put set") = true ∧
    includesStr (toLowerStr "somewhat write put set") "what" = true ∧
    includesStr (toLowerStr "somewhat write put set") "write" = true ∧
    includesStr (toLowerStr "somewhat write put set") "put" = true ∧
    includesStr (toLowerStr "somewhat write put set") "set" = true ∧
    processMessage okPort "somewhat write put set" = readBranch okPort ∧
    (processMessage okPort "somewhat write put set").2 =
      [PortCall.getCurrentWorksheet] := by
  have h := c10_read_keywords_win_by_substring okPort "somewhat write put set"
    (by decide) (by decide)
  refine ⟨by decide, by decide, by decide, by decide, by decide, by decide, h.1, ?_⟩
  rw [h.1]
  rfl
